import Mathlib

/-!
# Verification of the personal-feed content pipeline and recommendation resolver

Shallow embedding of the `firestore-gorse-sync` service
(`src/firestore-gorse-sync/index.js` and `src/firestore-gorse-sync/ingestion.js`):
the fallback scorer, the relevance filter, the content normalizer, the collection
orchestrator's aggregation and persistence phases, the retry utility, the per-host
rate limiter, the recommendation resolver's cache/rate-limit handling, and the
URL-derived document id.

JavaScript strings are modelled as `List Char` (`Str`) and JavaScript numbers as
`ℚ` where fractional arithmetic matters (scores, timestamps) and as `Int`/`Nat`
where the code only ever handles integers.
-/

set_option maxHeartbeats 1000000
set_option maxRecDepth 16384

/-- JavaScript strings, modelled as lists of characters. -/
abbrev Str := List Char

namespace Feed

/-- `s.toLowerCase()` (ASCII case folding, as used by every string this code
lowercases: tags, interests, URLs). -/
def jsToLower (s : Str) : Str := s.map Char.toLower

/-- `a.includes(b)` : substring containment test on JavaScript strings. -/
def jsIncludes (a b : Str) : Bool := decide (b <:+: a)

/-- JavaScript `x || y` on strings: the empty string is falsy. -/
def jsOr (a b : Str) : Str := if a = [] then b else a

theorem char_toLower_idem (c : Char) : c.toLower.toLower = c.toLower := by
  simp only [Char.toLower]
  by_cases h : c.toNat ≥ 65 ∧ c.toNat ≤ 90
  · rw [if_pos h]
    have hv : (c.toNat + 32).isValidChar := Or.inl (by omega)
    have ht : (Char.ofNat (c.toNat + 32)).toNat = c.toNat + 32 := by
      rw [Char.ofNat, dif_pos hv]; rfl
    rw [if_neg (by rw [ht]; omega)]
  · rw [if_neg h, if_neg h]

theorem jsToLower_idem (s : Str) : jsToLower (jsToLower s) = jsToLower s := by
  simp only [jsToLower, List.map_map]
  exact List.map_congr_left fun c _ => char_toLower_idem c

theorem jsIncludes_refl (s : Str) : jsIncludes s s = true := by
  simp [jsIncludes]

theorem mem_of_contains {l : List Str} {x : Str} (h : l.contains x = true) : x ∈ l :=
  List.mem_of_elem_eq_true h

-- ============================================================================
-- Relevance filter of `getRecommendationsForUser` (index.js lines 504-537)
-- ============================================================================

/-- `tags.some(tag => userInterests.includes(tag.toLowerCase()))`
(index.js line 516): exact-match side of the relevance check.  Note the code
lowercases only the tag and compares it verbatim against the interest list. -/
def hasExactMatch (userInterests tags : List Str) : Bool :=
  tags.any fun tag => userInterests.contains (jsToLower tag)

/-- `tags.some(tag => userInterests.some(interest =>
tag.toLowerCase().includes(interest.toLowerCase()) ||
interest.toLowerCase().includes(tag.toLowerCase())))`
(index.js lines 517-522): partial-match side of the relevance check. -/
def hasPartialMatch (userInterests tags : List Str) : Bool :=
  tags.any fun tag => userInterests.any fun interest =>
    jsIncludes (jsToLower tag) (jsToLower interest) ||
    jsIncludes (jsToLower interest) (jsToLower tag)

/-- `userInterests.length === 0 || hasExactMatch || hasPartialMatch`
(index.js line 525): a resolved ranker candidate is kept iff this holds. -/
def relevanceKeep (userInterests tags : List Str) : Bool :=
  userInterests.length == 0 ||
  hasExactMatch userInterests tags ||
  hasPartialMatch userInterests tags

/-- The condition stated by the claim: no interests, or some tag equals some
interest case-insensitively, or some tag/interest pair is in case-insensitive
containment relation. -/
def claimKeep (userInterests tags : List Str) : Prop :=
  userInterests = [] ∨
  (∃ tag ∈ tags, ∃ interest ∈ userInterests, jsToLower tag = jsToLower interest) ∨
  (∃ tag ∈ tags, ∃ interest ∈ userInterests,
    jsIncludes (jsToLower tag) (jsToLower interest) = true ∨
    jsIncludes (jsToLower interest) (jsToLower tag) = true)

theorem relevanceKeep_iff (userInterests tags : List Str) :
    relevanceKeep userInterests tags = true ↔ claimKeep userInterests tags := by
  simp only [relevanceKeep, claimKeep, hasExactMatch, hasPartialMatch,
    Bool.or_eq_true, List.any_eq_true, beq_iff_eq, List.length_eq_zero]
  constructor
  · rintro ((h | ⟨tag, htag, hmem⟩) | ⟨tag, htag, interest, hint, hpm⟩)
    · exact Or.inl h
    · refine Or.inr (Or.inl ⟨tag, htag, jsToLower tag, mem_of_contains hmem, ?_⟩)
      exact (jsToLower_idem tag).symm
    · exact Or.inr (Or.inr ⟨tag, htag, interest, hint, hpm⟩)
  · rintro (h | ⟨tag, htag, interest, hint, heq⟩ | ⟨tag, htag, interest, hint, hpm⟩)
    · exact Or.inl (Or.inl h)
    · refine Or.inr ⟨tag, htag, interest, hint, Or.inl ?_⟩
      rw [heq]
      exact jsIncludes_refl _
    · exact Or.inr ⟨tag, htag, interest, hint, hpm⟩

/-- Example inputs from the spec's relevance-filter property. -/
def exampleInterests : List Str := ["technology".data, "design".data]

-- ============================================================================
-- Fallback scorer `getFallbackRecommendations` (index.js lines 393-472)
-- ============================================================================

/-- The fields of a stored content document that the fallback scorer reads.
`publishedAt` is the publication instant in epoch milliseconds. -/
structure ContentDoc where
  tags : List Str
  publishedAt : ℚ
  important : Bool
  contentType : Str
deriving DecidableEq

/-- `tags.filter(tag => userInterests.includes(tag)).length` (index.js line 429):
count of candidate tags present verbatim in the interest list. -/
def tagMatchCount (userInterests : List Str) (d : ContentDoc) : ℕ :=
  (d.tags.filter fun tag => userInterests.contains tag).length

/-- `tags.filter(tag => userInterests.some(interest =>
tag.toLowerCase().includes(interest.toLowerCase()) ||
interest.toLowerCase().includes(tag.toLowerCase()))).length`
(index.js lines 433-438): count of candidate **tags** (not pairs) in
case-insensitive containment relation with some interest.  Tags that match
exactly are counted here as well. -/
def partialMatchCount (userInterests : List Str) (d : ContentDoc) : ℕ :=
  (d.tags.filter fun tag => userInterests.any fun interest =>
    jsIncludes (jsToLower tag) (jsToLower interest) ||
    jsIncludes (jsToLower interest) (jsToLower tag)).length

/-- `daysSince = (Date.now() - publishedAt.getTime()) / (1000*60*60*24)`
(index.js line 442). -/
def daysSince (now : ℚ) (d : ContentDoc) : ℚ :=
  (now - d.publishedAt) / (1000 * 60 * 60 * 24)

/-- `recencyBoost = Math.max(0, 5 - daysSince / 7)` (index.js line 443). -/
def recencyBoost (now : ℚ) (d : ContentDoc) : ℚ :=
  max 0 (5 - daysSince now d / 7)

/-- `importanceBoost = data.important ? 3 : 0` (index.js line 446). -/
def importanceBoost (d : ContentDoc) : ℚ :=
  if d.important then 3 else 0

/-- `contentTypeBoost = data.contentType === 'article' ? 1 : 0.8`
(index.js line 449). -/
def contentTypeBoost (d : ContentDoc) : ℚ :=
  if d.contentType = "article".data then 1 else 0.8

/-- `score = (tagMatchScore + partialMatchScore + recencyBoost + importanceBoost)
* contentTypeBoost` (index.js lines 430, 439, 451). -/
def fallbackScore (userInterests : List Str) (now : ℚ) (d : ContentDoc) : ℚ :=
  (tagMatchCount userInterests d * 10 + partialMatchCount userInterests d * 5 +
    recencyBoost now d + importanceBoost d) * contentTypeBoost d

/-- `tagMatchCount > 0 || partialMatches > 0` (index.js line 454): whether the
fallback scorer includes the candidate at all. -/
def fallbackIncluded (userInterests : List Str) (d : ContentDoc) : Bool :=
  decide (0 < tagMatchCount userInterests d) || decide (0 < partialMatchCount userInterests d)

/-- The per-candidate score as the claim words it: `partialMatches` counts
tag/interest **pairs** in case-insensitive containment relation, **excluding**
pairs already counted as exact (tag verbatim equal to the interest). -/
def claimPartialMatchCount (userInterests : List Str) (d : ContentDoc) : ℕ :=
  ((d.tags.product userInterests).filter fun p =>
    (jsIncludes (jsToLower p.1) (jsToLower p.2) ||
     jsIncludes (jsToLower p.2) (jsToLower p.1)) && !(p.1 == p.2)).length

/-- The score formula exactly as the claim states it. -/
def claimScore (userInterests : List Str) (now : ℚ) (d : ContentDoc) : ℚ :=
  (tagMatchCount userInterests d * 10 + claimPartialMatchCount userInterests d * 5 +
    recencyBoost now d + importanceBoost d) * contentTypeBoost d

/-- Every exact-matching tag also counts as a partial-matching tag. -/
theorem length_filter_mono {α : Type} (p q : α → Bool) (l : List α)
    (h : ∀ a ∈ l, p a = true → q a = true) :
    (l.filter p).length ≤ (l.filter q).length := by
  induction l with
  | nil => simp
  | cons a t ih =>
    have ht := ih fun x hx hp => h x (List.mem_cons_of_mem a hx) hp
    simp only [List.filter_cons]
    by_cases hp : p a = true
    · rw [hp, h a (List.mem_cons_self a t) hp]
      simpa using Nat.succ_le_succ ht
    · rw [Bool.not_eq_true] at hp
      rw [hp]
      cases hq : q a
      · simpa using ht
      · simpa using Nat.le_succ_of_le ht

theorem tagMatch_le_partialMatch (userInterests : List Str) (d : ContentDoc) :
    tagMatchCount userInterests d ≤ partialMatchCount userInterests d := by
  apply length_filter_mono
  intro tag _ hp
  rw [List.any_eq_true]
  exact ⟨tag, mem_of_contains hp, by simp [jsIncludes_refl]⟩

theorem contentTypeBoost_bounds (d : ContentDoc) :
    (4 / 5 : ℚ) ≤ contentTypeBoost d ∧ contentTypeBoost d ≤ 1 := by
  unfold contentTypeBoost
  split <;> norm_num

theorem importanceBoost_bounds (d : ContentDoc) :
    (0 : ℚ) ≤ importanceBoost d ∧ importanceBoost d ≤ 3 := by
  unfold importanceBoost
  split <;> norm_num

/-- C1 (amended): the fallback score is
`(exactMatches*10 + partialMatches*5 + recencyBoost + importanceBoost) *
contentTypeFactor`, where `partialMatches` counts candidate **tags** (not
tag/interest pairs) in case-insensitive containment relation with some
interest, **without** excluding tags already counted as exact; with that
formula, a candidate with 2 exact tag matches published today strictly
outscores one with 1 partial match published 30 days ago. -/
theorem C1_fallback_score_formula_and_order :
    (∀ (ui : List Str) (now : ℚ) (d : ContentDoc),
      fallbackScore ui now d =
        (tagMatchCount ui d * 10 + partialMatchCount ui d * 5 +
          recencyBoost now d + importanceBoost d) * contentTypeBoost d) ∧
    (∀ (ui : List Str) (now : ℚ) (A B : ContentDoc),
      tagMatchCount ui A = 2 → A.publishedAt = now →
      tagMatchCount ui B = 0 → partialMatchCount ui B = 1 →
      B.publishedAt = now - 30 * (1000 * 60 * 60 * 24) →
      fallbackScore ui now B < fallbackScore ui now A) := by
  constructor
  · intro ui now d
    rfl
  · intro ui now A B hA2 hApub hB0 hB1 hBpub
    have hpA : (2 : ℚ) ≤ (partialMatchCount ui A : ℚ) := by
      have := tagMatch_le_partialMatch ui A
      rw [hA2] at this
      exact_mod_cast this
    have hrA : recencyBoost now A = 5 := by
      rw [recencyBoost, daysSince, hApub]
      norm_num
    have hrB : recencyBoost now B = 5 / 7 := by
      rw [recencyBoost, daysSince, hBpub]
      norm_num
    have hfA := contentTypeBoost_bounds A
    have hfB := contentTypeBoost_bounds B
    have hiA := importanceBoost_bounds A
    have hiB := importanceBoost_bounds B
    rw [fallbackScore, fallbackScore, hA2, hB0, hB1, hrA, hrB]
    push_cast
    have hSA : (35 : ℚ) ≤ 2 * 10 + (partialMatchCount ui A : ℚ) * 5 + 5 + importanceBoost A := by
      linarith [hiA.1]
    have hSB : (0 : ℚ) ≤ 0 * 10 + 1 * 5 + 5 / 7 + importanceBoost B := by
      linarith [hiB.1]
    have hA28 : (35 : ℚ) * (4 / 5) ≤
        (2 * 10 + (partialMatchCount ui A : ℚ) * 5 + 5 + importanceBoost A) * contentTypeBoost A :=
      mul_le_mul hSA hfA.1 (by norm_num) (le_trans (by norm_num) hSA)
    have hB9 : (0 * 10 + 1 * 5 + 5 / 7 + importanceBoost B) * contentTypeBoost B ≤
        0 * 10 + 1 * 5 + 5 / 7 + importanceBoost B :=
      mul_le_of_le_one_right hSB hfB.2
    have : (0 : ℚ) * 10 + 1 * 5 + 5 / 7 + importanceBoost B ≤ 5 + 5 / 7 + 3 := by
      linarith [hiB.2]
    linarith

/-- Concrete fallback-scorer input: one tag `"tech"` matching the single
interest `"tech"` exactly, published at the reference instant, not important,
an article. -/
def exactDoc : ContentDoc :=
  ⟨["tech".data], 0, false, "article".data⟩

/-- C1 counterexample: on `exactDoc` the code's scorer yields
`(1*10 + 1*5 + 5 + 0) * 1 = 20` — the exact-matching tag is counted again as a
partial match — while the claim's formula (pairs, exact pairs excluded) yields
`(1*10 + 0*5 + 5 + 0) * 1 = 15`. -/
theorem C1_counterexample :
    fallbackScore ["tech".data] 0 exactDoc = 20 ∧
    claimScore ["tech".data] 0 exactDoc = 15 ∧
    fallbackScore ["tech".data] 0 exactDoc ≠ claimScore ["tech".data] 0 exactDoc := by
  have h1 : tagMatchCount ["tech".data] exactDoc = 1 := by decide
  have h2 : partialMatchCount ["tech".data] exactDoc = 1 := by decide
  have h3 : claimPartialMatchCount ["tech".data] exactDoc = 0 := by decide
  have h4 : recencyBoost 0 exactDoc = 5 := by
    rw [recencyBoost, daysSince]
    norm_num [exactDoc]
  have h5 : importanceBoost exactDoc = 0 := rfl
  have h6 : contentTypeBoost exactDoc = 1 := by
    simp [contentTypeBoost, exactDoc]
  rw [fallbackScore, claimScore, h1, h2, h3, h4, h5, h6]
  norm_num

/-- Witness for `C1_fallback_score_formula_and_order`: interests
`["t1","t2"]`, candidate `A` tagged `["t1","t2"]` published at the reference
instant, candidate `B` tagged `["t1x"]` (partial match with `"t1"`) published
30 days earlier. -/
theorem C1_witness :
    fallbackScore ["t1".data, "t2".data] 0 ⟨["t1x".data], -2592000000, false, "article".data⟩ <
    fallbackScore ["t1".data, "t2".data] 0 ⟨["t1".data, "t2".data], 0, false, "article".data⟩ :=
  C1_fallback_score_formula_and_order.2 ["t1".data, "t2".data] 0
    ⟨["t1".data, "t2".data], 0, false, "article".data⟩
    ⟨["t1x".data], -2592000000, false, "article".data⟩
    (by decide) (by norm_num) (by decide) (by decide) (by norm_num)

/-- C6 (amended): a resolved ranker candidate is kept iff the user has no
interests, or some tag equals some interest case-insensitively, or some
tag/interest pair is in case-insensitive containment relation; with interests
`["technology","design"]` the candidate tagged `["technology"]` is included
while the ones tagged `["tech-news"]` and `["poetry"]` are both excluded
(`"tech-news"` and `"technology"` are not substrings of one another). -/
theorem C6_relevance_filter :
    (∀ (userInterests tags : List Str),
      relevanceKeep userInterests tags = true ↔ claimKeep userInterests tags) ∧
    relevanceKeep exampleInterests ["technology".data] = true ∧
    relevanceKeep exampleInterests ["tech-news".data] = false ∧
    relevanceKeep exampleInterests ["poetry".data] = false :=
  ⟨relevanceKeep_iff, by decide, by decide, by decide⟩

/-- C6 counterexample: the claim asserts the candidate tagged `["tech-news"]`
is included for interests `["technology","design"]`, but the code drops it:
neither `"tech-news"` nor `"technology"` contains the other. -/
theorem C6_counterexample :
    relevanceKeep exampleInterests ["tech-news".data] = false ∧
    ¬ claimKeep exampleInterests ["tech-news".data] := by
  constructor
  · decide
  · rw [← relevanceKeep_iff]
    decide

/-- Witness for `C6_relevance_filter`: instantiating the equivalence on the
example interests and the exactly-matching candidate. -/
theorem C6_witness :
    claimKeep exampleInterests ["technology".data] :=
  (C6_relevance_filter.1 exampleInterests ["technology".data]).mp (by decide)

-- ============================================================================
-- HTML stripping and content normalization
-- (index.js `stripHTML` lines 1063-1076, `normalizeContent` lines 1081-1101;
--  ingestion.js `extractPlainText` lines 98-107, `parseFeed` lines 133-148)
-- ============================================================================

/-- `.replace(/<[^>]*>/g, ' ')`: every maximal `<...>` group up to the first
`>` becomes one space; a `<` with no later `>` cannot start a match and is
kept. -/
def removeTags : Str → Str
  | [] => []
  | c :: rest =>
    if c = '<' then
      if h : '>' ∈ rest then
        ' ' :: removeTags ((rest.dropWhile (· ≠ '>')).tail)
      else
        c :: rest
    else
      c :: removeTags rest
termination_by l => l.length
decreasing_by
  · simp only [List.length_cons]
    have h1 : (rest.dropWhile (· ≠ '>')).length ≤ rest.length := (List.dropWhile_sublist _).length_le
    have h2 : ((rest.dropWhile (· ≠ '>')).tail).length ≤ (rest.dropWhile (· ≠ '>')).length := by
      rw [List.length_tail]; omega
    omega
  · simp only [List.length_cons]; omega

/-- `.replace(/pat/g, rep)` for a fixed pattern string: non-overlapping
left-to-right replacement, as done for each HTML entity. -/
def replaceAll (pat rep : Str) : Str → Str
  | [] => []
  | c :: rest =>
    if h : pat ≠ [] ∧ pat.isPrefixOf (c :: rest) then
      rep ++ replaceAll pat rep ((c :: rest).drop pat.length)
    else
      c :: replaceAll pat rep rest
termination_by l => l.length
decreasing_by
  · have hp : 0 < pat.length := List.length_pos.mpr h.1
    simp only [List.length_drop, List.length_cons]
    omega
  · simp only [List.length_cons]; omega

/-- The six entity substitutions of `stripHTML`, applied in source order
(`&nbsp;`, `&amp;`, `&lt;`, `&gt;`, `&quot;`, `&#39;`). -/
def decodeEntities (s : Str) : Str :=
  replaceAll "&#39;".data ['\''] <|
  replaceAll "&quot;".data ['"'] <|
  replaceAll "&gt;".data ['>'] <|
  replaceAll "&lt;".data ['<'] <|
  replaceAll "&amp;".data ['&'] <|
  replaceAll "&nbsp;".data [' '] s

/-- `.replace(/\s+/g, ' ')`: each maximal whitespace run becomes one space. -/
def collapseWS : Str → Str
  | [] => []
  | c :: rest =>
    if c.isWhitespace then ' ' :: collapseWS (rest.dropWhile Char.isWhitespace)
    else c :: collapseWS rest
termination_by l => l.length
decreasing_by
  · simp only [List.length_cons]
    have := (List.dropWhile_sublist (l := rest) Char.isWhitespace).length_le
    omega
  · simp only [List.length_cons]; omega

/-- `.trim()`: strip leading and trailing whitespace. -/
def jsTrim (s : Str) : Str :=
  ((s.dropWhile Char.isWhitespace).reverse.dropWhile Char.isWhitespace).reverse

/-- `stripHTML` (index.js lines 1063-1076). -/
def stripHTML (html : Str) : Str :=
  if html = [] then []
  else jsTrim (collapseWS (decodeEntities (removeTags html)))

/-- A raw fetched item, with absent fields modelled as the empty string
(absent and `''` behave identically under the `||` chains the code uses). -/
structure RawItem where
  title : Str := []
  description : Str := []
  contentSnippet : Str := []
  summary : Str := []
  content : Str := []
  contentEncoded : Str := []
  link : Str := []
  url : Str := []
  guid : Str := []
  isoDate : Str := []
  pubDate : Str := []
  published : Str := []

/-- A normalized Content Record as built by the collector.  `publishedAt`
keeps the raw date string selected by the `||` chain (empty means "none
provided", in which case the code falls back to ingestion time). -/
structure NormalizedRecord where
  title : Str
  excerpt : Str
  plain_text : Str
  tags : List Str
  publishedAt : Str
  source : Str
  url : Str
  license : Str
  contentType : Str
  important : Bool
deriving DecidableEq

/-- `normalizeContent(item, source, tags, license, contentType)` (index.js
lines 1081-1101). -/
def normalizeContent (item : RawItem) (source : Str) (tags : List Str)
    (license : Str) (contentType : Str) : NormalizedRecord :=
  let title := (stripHTML (jsOr item.title "Untitled".data)).take 200
  let description := stripHTML (jsOr item.description (jsOr item.contentSnippet item.summary))
  let excerpt := description.take 200
  let plainText := if license = "public-domain".data then description else excerpt
  { title := title
    excerpt := excerpt
    plain_text := plainText
    tags := tags
    publishedAt := jsOr item.isoDate (jsOr item.pubDate item.published)
    source := source
    url := jsOr item.link item.url
    license := license
    contentType := contentType
    important := false }

/-- `extractPlainText` (ingestion.js lines 98-107): tag removal, whitespace
collapse, trim, then a 500-character cap.  No entity decoding. -/
def extractPlainText (html : Str) : Str :=
  if html = [] then []
  else (jsTrim (collapseWS (removeTags html))).take 500

/-- The content record built per item by `parseFeed` (ingestion.js lines
133-148): the excerpt is the raw snippet capped at **300** characters and the
plain text is extracted from the full content regardless of any license. -/
def parseFeedRecord (item : RawItem) (feedUrl : Str) (tags : List Str) : NormalizedRecord :=
  let excerpt := jsOr item.contentSnippet (jsOr item.summary item.description)
  { title := jsOr item.title "Untitled".data
    excerpt := excerpt.take 300
    plain_text := extractPlainText (jsOr item.content (jsOr item.contentEncoded excerpt))
    tags := tags
    publishedAt := item.isoDate
    source := feedUrl
    url := item.link
    license := []
    contentType := "article".data
    important := false }

/-- C2 (amended): every Content Record built by the **collector's**
`normalizeContent` has an excerpt of at most 200 characters; whenever its
license is not `public-domain` (in particular for `restricted`, `rss`, `api`)
the stored full text equals the capped excerpt and so never exceeds 200
characters; only `public-domain` records carry the uncapped stripped
description.  (Records built by the legacy `parseFeed` ingestion path are
exempt: they cap the excerpt at 300 and store separately extracted plain text
with no license check.) -/
theorem C2_normalizer_excerpt_license :
    ∀ (item : RawItem) (source : Str) (tags : List Str) (license contentType : Str),
      (normalizeContent item source tags license contentType).excerpt.length ≤ 200 ∧
      (license ∈ [("restricted".data : Str), "rss".data, "api".data] →
        (normalizeContent item source tags license contentType).plain_text =
          (normalizeContent item source tags license contentType).excerpt ∧
        (normalizeContent item source tags license contentType).plain_text.length ≤ 200) ∧
      (license = "public-domain".data →
        (normalizeContent item source tags license contentType).plain_text =
          stripHTML (jsOr item.description (jsOr item.contentSnippet item.summary))) := by
  intro item source tags license contentType
  refine ⟨?_, ?_, ?_⟩
  · simp [normalizeContent, List.length_take]
  · intro hmem
    have hne : license ≠ "public-domain".data := by
      simp only [List.mem_cons, List.mem_singleton, List.not_mem_nil, or_false] at hmem
      rcases hmem with h | h | h <;> (subst h; decide)
    constructor
    · simp [normalizeContent, if_neg hne]
    · simp [normalizeContent, if_neg hne, List.length_take]
  · intro hpd
    simp [normalizeContent, if_pos hpd]

/-- C2 counterexample: the ingestion pipeline's `parseFeed` caps excerpts at
300, not 200 — an item whose snippet has 250 characters produces a Content
Record whose excerpt has 250 characters. -/
theorem C2_counterexample :
    (parseFeedRecord { contentSnippet := List.replicate 250 'a' } [] []).excerpt.length = 250 ∧
    200 < (parseFeedRecord { contentSnippet := List.replicate 250 'a' } [] []).excerpt.length := by
  have hne : (List.replicate 250 'a' : Str) ≠ [] := by simp
  have h : (parseFeedRecord { contentSnippet := List.replicate 250 'a' } [] []).excerpt.length
      = 250 := by
    simp only [parseFeedRecord, jsOr]
    rw [if_neg hne]
    simp [List.length_take]
  exact ⟨h, by rw [h]; norm_num⟩

/-- Witness for `C2_normalizer_excerpt_license`: an `rss`-licensed record built
from a long snippet stores the capped excerpt as its full text. -/
theorem C2_witness :
    (normalizeContent { contentSnippet := List.replicate 250 'a' } [] [] "rss".data
        "article".data).plain_text =
      (normalizeContent { contentSnippet := List.replicate 250 'a' } [] [] "rss".data
        "article".data).excerpt ∧
    (normalizeContent { contentSnippet := List.replicate 250 'a' } [] [] "rss".data
        "article".data).plain_text.length ≤ 200 :=
  (C2_normalizer_excerpt_license { contentSnippet := List.replicate 250 'a' } [] []
    "rss".data "article".data).2.1 (by decide)

-- ============================================================================
-- `generateDocId` (index.js lines 1043-1058): URL normalization + MD5 prefix
-- ============================================================================

/-- Truncation to 32 bits. -/
def w32 (x : ℕ) : ℕ := x % 4294967296

/-- 32-bit bitwise complement (operands are already < 2^32). -/
def mnot (b : ℕ) : ℕ := 4294967295 - b % 4294967296

/-- 32-bit left rotation (operand already < 2^32). -/
def rotl32 (x c : ℕ) : ℕ := ((x <<< c) % 4294967296) ||| (x >>> (32 - c))

def mdF (b c d : ℕ) : ℕ := (b &&& c) ||| (mnot b &&& d)
def mdG (b c d : ℕ) : ℕ := (d &&& b) ||| (mnot d &&& c)
def mdH (b c d : ℕ) : ℕ := b ^^^ c ^^^ d
def mdI (b c d : ℕ) : ℕ := c ^^^ (b ||| mnot d)

/-- The 64 MD5 sine-derived constants. -/
def mdK : List ℕ :=
  [3614090360, 3905402710, 606105819, 3250441966, 4118548399, 1200080426,
   2821735955, 4249261313, 1770035416, 2336552879, 4294925233, 2304563134,
   1804603682, 4254626195, 2792965006, 1236535329, 4129170786, 3225465664,
   643717713, 3921069994, 3593408605, 38016083, 3634488961, 3889429448,
   568446438, 3275163606, 4107603335, 1163531501, 2850285829, 4243563512,
   1735328473, 2368359562, 4294588738, 2272392833, 1839030562, 4259657740,
   2763975236, 1272893353, 4139469664, 3200236656, 681279174, 3936430074,
   3572445317, 76029189, 3654602809, 3873151461, 530742520, 3299628645,
   4096336452, 1126891415, 2878612391, 4237533241, 1700485571, 2399980690,
   4293915773, 2240044497, 1873313359, 4264355552, 2734768916, 1309151649,
   4149444226, 3174756917, 718787259, 3951481745]

/-- The 64 MD5 per-round shift amounts. -/
def mdS : List ℕ :=
  [7, 12, 17, 22, 7, 12, 17, 22, 7, 12, 17, 22, 7, 12, 17, 22,
   5, 9, 14, 20, 5, 9, 14, 20, 5, 9, 14, 20, 5, 9, 14, 20,
   4, 11, 16, 23, 4, 11, 16, 23, 4, 11, 16, 23, 4, 11, 16, 23,
   6, 10, 15, 21, 6, 10, 15, 21, 6, 10, 15, 21, 6, 10, 15, 21]

/-- `k` little-endian bytes of `n`. -/
def toLEBytes : ℕ → ℕ → List ℕ
  | 0, _ => []
  | k + 1, n => n % 256 :: toLEBytes k (n / 256)

/-- MD5 padding: `0x80`, zeros to 56 mod 64, then the 64-bit little-endian
bit length. -/
def padMessage (msg : List ℕ) : List ℕ :=
  msg ++ [128] ++ List.replicate ((119 - msg.length % 64) % 64) 0 ++
    toLEBytes 8 ((msg.length * 8) % 18446744073709551616)

/-- Split into 64-byte chunks (`fuel` bounds the recursion; it is always
called with `fuel = l.length`, which suffices). -/
def chunksAux : ℕ → List ℕ → List (List ℕ)
  | 0, _ => []
  | _ + 1, [] => []
  | k + 1, l => l.take 64 :: chunksAux k (l.drop 64)

def chunks (l : List ℕ) : List (List ℕ) := chunksAux l.length l

/-- The sixteen 32-bit little-endian words of a 64-byte chunk. -/
def chunkWords (chunk : List ℕ) : List ℕ :=
  (List.range 16).map fun j =>
    chunk.getD (4 * j) 0 + 256 * chunk.getD (4 * j + 1) 0 +
      65536 * chunk.getD (4 * j + 2) 0 + 16777216 * chunk.getD (4 * j + 3) 0

/-- One MD5 round on state `(a, b, c, d)`. -/
def mdRound (M : List ℕ) (st : ℕ × ℕ × ℕ × ℕ) (i : ℕ) : ℕ × ℕ × ℕ × ℕ :=
  let a := st.1
  let b := st.2.1
  let c := st.2.2.1
  let d := st.2.2.2
  let fg : ℕ × ℕ :=
    if i < 16 then (mdF b c d, i)
    else if i < 32 then (mdG b c d, (5 * i + 1) % 16)
    else if i < 48 then (mdH b c d, (3 * i + 5) % 16)
    else (mdI b c d, (7 * i) % 16)
  let f2 := w32 (fg.1 + a + mdK.getD i 0 + M.getD fg.2 0)
  (d, w32 (b + rotl32 f2 (mdS.getD i 0)), b, c)

/-- Process one 64-byte chunk. -/
def mdProcessChunk (st : ℕ × ℕ × ℕ × ℕ) (chunk : List ℕ) : ℕ × ℕ × ℕ × ℕ :=
  let r := (List.range 64).foldl (mdRound (chunkWords chunk)) st
  (w32 (st.1 + r.1), w32 (st.2.1 + r.2.1), w32 (st.2.2.1 + r.2.2.1), w32 (st.2.2.2 + r.2.2.2))

/-- The 16-byte MD5 digest of a byte string. -/
def md5bytes (msg : List ℕ) : List ℕ :=
  let st := (chunks (padMessage msg)).foldl mdProcessChunk
    (1732584193, 4023233417, 2562383102, 271733878)
  toLEBytes 4 st.1 ++ toLEBytes 4 st.2.1 ++ toLEBytes 4 st.2.2.1 ++ toLEBytes 4 st.2.2.2

def hexDigit (n : ℕ) : Char := "0123456789abcdef".data.getD n '0'

def byteToHex (b : ℕ) : Str := [hexDigit (b / 16), hexDigit (b % 16)]

/-- `crypto.createHash('md5').update(s).digest('hex')`. -/
def md5hex (msg : List ℕ) : Str := ((md5bytes msg).map byteToHex).flatten

/-- Byte encoding of a (normalized, hence ASCII) string. -/
def toBytes (s : Str) : List ℕ := s.map Char.toNat

/-- `url.replace(/^https?:\/\//, '')` (after lowercasing). -/
def stripScheme (s : Str) : Str :=
  if "https://".data.isPrefixOf s then s.drop 8
  else if "http://".data.isPrefixOf s then s.drop 7
  else s

/-- `.replace(/\/$/, '')`. -/
def stripTrailingSlash (s : Str) : Str :=
  if s.getLast? = some '/' then s.dropLast else s

/-- Matches `[a-z0-9]`, the characters kept by `.replace(/[^a-z0-9]/g, '_')`. -/
def isLowerAlnum (c : Char) : Bool :=
  (97 ≤ c.toNat && c.toNat ≤ 122) || (48 ≤ c.toNat && c.toNat ≤ 57)

/-- The normalization pipeline of `generateDocId` (index.js lines 1044-1049):
lowercase, strip scheme, strip one trailing slash, replace every
non-alphanumeric character with `'_'`, truncate to 100 characters. -/
def normalizeUrl (url : Str) : Str :=
  ((stripTrailingSlash (stripScheme (jsToLower url))).map
    fun c => if isLowerAlnum c then c else '_').take 100

/-- `generateDocId(url)` (index.js lines 1043-1058): the first 20 hex digits
of the MD5 of the normalized URL. -/
def generateDocId (url : Str) : Str :=
  (md5hex (toBytes (normalizeUrl url))).take 20

theorem toLEBytes_length (k : ℕ) : ∀ n, (toLEBytes k n).length = k := by
  induction k with
  | zero => intro n; rfl
  | succ k ih => intro n; simp [toLEBytes, ih]

theorem md5bytes_length (m : List ℕ) : (md5bytes m).length = 16 := by
  rw [md5bytes]
  simp [toLEBytes_length]

theorem md5hex_length (m : List ℕ) : (md5hex m).length = 32 := by
  rw [md5hex]
  have h : ∀ l : List ℕ, ((l.map byteToHex).flatten).length = 2 * l.length := by
    intro l
    induction l with
    | nil => rfl
    | cons b t ih => simp [byteToHex, ih]; omega
  rw [h, md5bytes_length]

/-- C8: `deriveId` is a pure function with fixed-length (20 hex characters)
output; any two URLs with the same normalization — same letter-case folding,
`http` vs `https` scheme, trailing slash, non-alphanumerics replaced by the
filler — get the same id; concrete instances cover each normalization rule. -/
theorem C8_deriveId_determinism :
    (∀ url : Str, (generateDocId url).length = 20) ∧
    (∀ u1 u2 : Str, normalizeUrl u1 = normalizeUrl u2 →
      generateDocId u1 = generateDocId u2) ∧
    generateDocId "HTTP://Example.com/Path/".data =
      generateDocId "https://example.com/path".data ∧
    generateDocId "http://example.com/a".data = generateDocId "https://example.com/a".data ∧
    generateDocId "https://example.com/a b".data =
      generateDocId "https://example.com/a_b".data := by
  refine ⟨?_, ?_, ?_, ?_, ?_⟩
  · intro url
    simp [generateDocId, List.length_take, md5hex_length]
  · intro u1 u2 h
    simp only [generateDocId, h]
  · decide
  · decide
  · decide

/-- Witness for `C8_deriveId_determinism`: a case-variant pair of URLs
normalizes identically, hence shares its id. -/
theorem C8_witness :
    generateDocId "https://EXAMPLE.com/x".data = generateDocId "https://example.com/X".data :=
  C8_deriveId_determinism.2.1 "https://EXAMPLE.com/x".data "https://example.com/X".data
    (by decide)

-- ============================================================================
-- Collection orchestrator `collectAllContent` (index.js lines 1576-1761)
-- and `fetchRSS` (index.js lines 1133-1166)
-- ============================================================================

/-- One discovered item: derived document id plus normalized record. -/
structure FetchItem where
  docId : Str
  data : NormalizedRecord
deriving DecidableEq

/-- A per-feed fetch outcome `{success, source, error?, items}`.  A missing
`error` field is the empty string (both are falsy under `||`). -/
structure FetchResult where
  success : Bool
  source : Str
  error : Str
  items : List FetchItem
deriving DecidableEq

/-- `fetchRSS(url, tags, license, contentType)` (index.js lines 1133-1166),
with the network/parser outcome supplied as an explicit `Except`: a parse
failure is caught and becomes `{success:false, source, error, items:[]}`;
otherwise every feed entry with a link is normalized and paired with its
derived id. -/
def fetchRSS (parseOutcome : Except Str (List RawItem)) (url : Str) (tags : List Str)
    (license : Str) (contentType : Str) : FetchResult :=
  match parseOutcome with
  | .error e => { success := false, source := url, error := e, items := [] }
  | .ok feedItems =>
      { success := true
        source := url
        error := []
        items := (feedItems.filter fun it => it.link ≠ []).map fun it =>
          { docId := generateDocId it.link
            data := normalizeContent it url tags license contentType } }

/-- `{source, error}` entry of the run's error list. -/
structure SourceError where
  source : Str
  error : Str
deriving DecidableEq

/-- Accumulator of the aggregation loop (index.js lines 1622-1639). -/
structure AggState where
  allItems : List FetchItem
  errors : List SourceError
  feedsAttempted : ℕ
  feedsSucceeded : ℕ
deriving DecidableEq

/-- One iteration of `for (const result of flatResults)` (index.js lines
1627-1639). -/
def aggStep (st : AggState) (r : FetchResult) : AggState :=
  if r.success then
    { st with
        feedsAttempted := st.feedsAttempted + 1
        feedsSucceeded := st.feedsSucceeded + 1
        allItems := st.allItems ++ r.items }
  else
    { st with
        feedsAttempted := st.feedsAttempted + 1
        errors := st.errors ++ [⟨r.source, jsOr r.error "Unknown error".data⟩] }

/-- The whole aggregation loop over the flattened per-feed results. -/
def aggregateResults (flat : List FetchResult) : AggState :=
  flat.foldl aggStep ⟨[], [], 0, 0⟩

theorem aggregate_foldl_spec (flat : List FetchResult) (st : AggState) :
    (flat.foldl aggStep st).feedsAttempted = st.feedsAttempted + flat.length ∧
    (flat.foldl aggStep st).feedsSucceeded =
      st.feedsSucceeded + (flat.filter (·.success)).length ∧
    (flat.foldl aggStep st).errors =
      st.errors ++ (flat.filter fun r => !r.success).map
        (fun r => ⟨r.source, jsOr r.error "Unknown error".data⟩) ∧
    (flat.foldl aggStep st).allItems =
      st.allItems ++ ((flat.filter (·.success)).map (·.items)).flatten := by
  induction flat generalizing st with
  | nil => simp
  | cons r rest ih =>
    cases hs : r.success
    · have ha : aggStep st r =
          { st with
              feedsAttempted := st.feedsAttempted + 1
              errors := st.errors ++ [⟨r.source, jsOr r.error "Unknown error".data⟩] } := by
        simp [aggStep, hs]
      rw [List.foldl_cons, ha]
      obtain ⟨h1, h2, h3, h4⟩ := ih _
      rw [h1, h2, h3, h4]
      simp only [List.filter_cons, hs, Bool.not_false, List.length_cons, List.map_cons]
      refine ⟨by omega, by simp, ?_, by simp⟩
      simp [List.append_assoc]
    · have ha : aggStep st r =
          { st with
              feedsAttempted := st.feedsAttempted + 1
              feedsSucceeded := st.feedsSucceeded + 1
              allItems := st.allItems ++ r.items } := by
        simp [aggStep, hs]
      rw [List.foldl_cons, ha]
      obtain ⟨h1, h2, h3, h4⟩ := ih _
      rw [h1, h2, h3, h4]
      simp only [List.filter_cons, hs, Bool.not_true, List.length_cons, List.map_cons]
      refine ⟨by omega, by simp; omega, by simp, ?_⟩
      simp [List.append_assoc]

theorem filter_length_split (l : List FetchResult) :
    l.length = (l.filter (·.success)).length + (l.filter fun r => !r.success).length := by
  induction l with
  | nil => rfl
  | cons a t ih => cases h : a.success <;> (simp [List.filter_cons, h, ih]; omega)

/-- C5: a collection run aggregates every per-feed result: `feedsAttempted`
equals the number of attempted feeds and equals succeeded + failed, the error
list has exactly one `{source, error}` entry per failing feed (in order, no
others), items of every succeeding feed all reach the aggregated item list,
and a caught fetch failure becomes a clean `success:false` result instead of
aborting. -/
theorem C5_partial_failure_isolation :
    (∀ flat : List FetchResult,
      (aggregateResults flat).feedsAttempted = flat.length ∧
      (aggregateResults flat).feedsAttempted =
        (aggregateResults flat).feedsSucceeded + (aggregateResults flat).errors.length ∧
      (aggregateResults flat).errors =
        (flat.filter fun r => !r.success).map
          (fun r => ⟨r.source, jsOr r.error "Unknown error".data⟩) ∧
      (aggregateResults flat).allItems =
        ((flat.filter (·.success)).map (·.items)).flatten) ∧
    (∀ (e url : Str) (tags : List Str) (license contentType : Str),
      fetchRSS (.error e) url tags license contentType =
        { success := false, source := url, error := e, items := [] }) ∧
    (∀ (feedItems : List RawItem) (url : Str) (tags : List Str) (license contentType : Str),
      (fetchRSS (.ok feedItems) url tags license contentType).success = true ∧
      (fetchRSS (.ok feedItems) url tags license contentType).items =
        (feedItems.filter fun it => it.link ≠ []).map fun it =>
          { docId := generateDocId it.link
            data := normalizeContent it url tags license contentType }) := by
  refine ⟨?_, fun e url tags license contentType => rfl,
    fun feedItems url tags license contentType => ⟨rfl, rfl⟩⟩
  intro flat
  obtain ⟨h1, h2, h3, h4⟩ := aggregate_foldl_spec flat ⟨[], [], 0, 0⟩
  rw [aggregateResults] at *
  refine ⟨by simpa using h1, ?_, by simpa using h3, by simpa using h4⟩
  rw [h1, h2, h3]
  simp [filter_length_split flat]

-- ============================================================================
-- Persistence phase of `collectAllContent` (index.js lines 1661-1694)
-- ============================================================================

/-- Mutable state of the write loop: the `content` collection (an ordered
association list, first binding wins on lookup) and the run counters. -/
structure WriteState where
  storage : List (Str × NormalizedRecord)
  newItemsAdded : ℕ
  existingItems : ℕ
  itemsToSync : List FetchItem
deriving DecidableEq

/-- The `for (const item of allItems)` write loop (index.js lines 1665-1694):
break once `newItemsAdded` reaches the cap, skip ids that already exist,
otherwise persist and count. -/
def writeItems (cap : ℕ) : List FetchItem → WriteState → WriteState
  | [], st => st
  | item :: rest, st =>
    if cap ≤ st.newItemsAdded then st
    else if (st.storage.lookup item.docId).isSome then
      writeItems cap rest { st with existingItems := st.existingItems + 1 }
    else
      writeItems cap rest
        { st with
            storage := st.storage ++ [(item.docId, item.data)]
            newItemsAdded := st.newItemsAdded + 1
            itemsToSync := st.itemsToSync ++ [item] }

theorem lookup_append_left {β : Type} {l₁ l₂ : List (Str × β)} {k : Str}
    {v : β} (h : l₁.lookup k = some v) : (l₁ ++ l₂).lookup k = some v := by
  induction l₁ with
  | nil => simp [List.lookup] at h
  | cons a t ih =>
    obtain ⟨ka, va⟩ := a
    by_cases hk : (k == ka) = true
    · simp only [List.cons_append, List.lookup, hk] at h ⊢
      exact h
    · rw [Bool.not_eq_true] at hk
      simp only [List.cons_append, List.lookup, hk] at h ⊢
      exact ih h

theorem lookup_append_of_none {β : Type} {l₁ l₂ : List (Str × β)} {k : Str}
    (h : l₁.lookup k = none) : (l₁ ++ l₂).lookup k = l₂.lookup k := by
  induction l₁ with
  | nil => simp
  | cons a t ih =>
    obtain ⟨ka, va⟩ := a
    by_cases hk : (k == ka) = true
    · simp only [List.lookup, hk] at h
      exact Option.noConfusion h
    · rw [Bool.not_eq_true] at hk
      simp only [List.cons_append, List.lookup, hk] at h ⊢
      exact ih h

theorem writeItems_lookup_mono (cap : ℕ) (items : List FetchItem) (st : WriteState)
    (k : Str) (v : NormalizedRecord) (h : st.storage.lookup k = some v) :
    ((writeItems cap items st).storage.lookup k) = some v := by
  induction items generalizing st with
  | nil => exact h
  | cons item rest ih =>
    rw [writeItems]
    split
    · exact h
    · split
      · exact ih _ h
      · exact ih _ (lookup_append_left h)

theorem writeItems_added_mono (cap : ℕ) (items : List FetchItem) (st : WriteState) :
    st.newItemsAdded ≤ (writeItems cap items st).newItemsAdded := by
  induction items generalizing st with
  | nil => exact le_refl _
  | cons item rest ih =>
    rw [writeItems]
    split
    · exact le_refl _
    · split
      · exact ih { st with existingItems := st.existingItems + 1 }
      · exact le_trans (Nat.le_succ _)
          (ih { st with
                  storage := st.storage ++ [(item.docId, item.data)]
                  newItemsAdded := st.newItemsAdded + 1
                  itemsToSync := st.itemsToSync ++ [item] })

theorem writeItems_cap (cap : ℕ) (items : List FetchItem) (st : WriteState)
    (h : st.newItemsAdded ≤ cap) : (writeItems cap items st).newItemsAdded ≤ cap := by
  induction items generalizing st with
  | nil => exact h
  | cons item rest ih =>
    rw [writeItems]
    split
    · exact h
    · next hlt =>
      split
      · exact ih { st with existingItems := st.existingItems + 1 } h
      · refine ih { st with
            storage := st.storage ++ [(item.docId, item.data)]
            newItemsAdded := st.newItemsAdded + 1
            itemsToSync := st.itemsToSync ++ [item] } ?_
        show st.newItemsAdded + 1 ≤ cap
        rw [Nat.not_le] at hlt
        omega

theorem writeItems_complete (cap : ℕ) (items : List FetchItem) (st : WriteState)
    (h : (writeItems cap items st).newItemsAdded < cap) :
    ∀ item ∈ items, ((writeItems cap items st).storage.lookup item.docId).isSome := by
  induction items generalizing st with
  | nil => intro item hmem; cases hmem
  | cons hd rest ih =>
    intro item hmem
    by_cases hbreak : cap ≤ st.newItemsAdded
    · have heq : writeItems cap (hd :: rest) st = st := by
        rw [writeItems, if_pos hbreak]
      rw [heq] at h
      have := writeItems_added_mono cap (hd :: rest) st
      omega
    · by_cases hsome : (st.storage.lookup hd.docId).isSome
      · have heq : writeItems cap (hd :: rest) st =
            writeItems cap rest { st with existingItems := st.existingItems + 1 } := by
          rw [writeItems, if_neg hbreak, if_pos hsome]
        rw [heq] at h ⊢
        rcases List.mem_cons.mp hmem with rfl | hmem2
        · obtain ⟨v, hv⟩ := Option.isSome_iff_exists.mp hsome
          rw [writeItems_lookup_mono cap rest
            { st with existingItems := st.existingItems + 1 } item.docId v hv]
          rfl
        · exact ih _ h item hmem2
      · have heq : writeItems cap (hd :: rest) st =
            writeItems cap rest
              { st with
                  storage := st.storage ++ [(hd.docId, hd.data)]
                  newItemsAdded := st.newItemsAdded + 1
                  itemsToSync := st.itemsToSync ++ [hd] } := by
          rw [writeItems, if_neg hbreak, if_neg hsome]
        rw [heq] at h ⊢
        rcases List.mem_cons.mp hmem with rfl | hmem2
        · have hfind : ((st.storage ++ [(item.docId, item.data)]).lookup item.docId) =
              some item.data := by
            rw [lookup_append_of_none (Option.not_isSome_iff_eq_none.mp hsome)]
            simp [List.lookup]
          rw [writeItems_lookup_mono cap rest
            { st with
                storage := st.storage ++ [(item.docId, item.data)]
                newItemsAdded := st.newItemsAdded + 1
                itemsToSync := st.itemsToSync ++ [item] } item.docId item.data hfind]
          rfl
        · exact ih _ h item hmem2

theorem writeItems_all_existing (cap : ℕ) (items : List FetchItem) (st : WriteState)
    (h : ∀ item ∈ items, (st.storage.lookup item.docId).isSome) :
    (writeItems cap items st).storage = st.storage ∧
    (writeItems cap items st).newItemsAdded = st.newItemsAdded := by
  induction items generalizing st with
  | nil => exact ⟨rfl, rfl⟩
  | cons hd rest ih =>
    rw [writeItems]
    split
    · exact ⟨rfl, rfl⟩
    · rw [if_pos (h hd (List.mem_cons_self hd rest))]
      exact ih _ fun item hmem => h item (List.mem_cons_of_mem hd hmem)

/-- C4 (amended): in a live run items are processed sequentially in arrival
order; an id already in storage keeps its stored record untouched (skipped,
never overwritten); at most `cap` new items are persisted; and a second run
over the same items persists zero new items **provided the first run did not
hit the cap** — if the first run was truncated by the cap, the dropped items
are new on the second run. -/
theorem C4_write_phase :
    (∀ (cap : ℕ) (items : List FetchItem) (st : WriteState) (id : Str)
        (v : NormalizedRecord),
      st.storage.lookup id = some v →
      (writeItems cap items st).storage.lookup id = some v) ∧
    (∀ (cap : ℕ) (items : List FetchItem) (st : WriteState),
      st.newItemsAdded ≤ cap → (writeItems cap items st).newItemsAdded ≤ cap) ∧
    (∀ (cap : ℕ) (items : List FetchItem) (storage : List (Str × NormalizedRecord)),
      (writeItems cap items ⟨storage, 0, 0, []⟩).newItemsAdded < cap →
      (writeItems cap items
          ⟨(writeItems cap items ⟨storage, 0, 0, []⟩).storage, 0, 0, []⟩).storage =
        (writeItems cap items ⟨storage, 0, 0, []⟩).storage ∧
      (writeItems cap items
          ⟨(writeItems cap items ⟨storage, 0, 0, []⟩).storage, 0, 0, []⟩).newItemsAdded = 0) := by
  refine ⟨writeItems_lookup_mono, writeItems_cap, ?_⟩
  intro cap items storage h
  exact writeItems_all_existing cap items _
    fun item hmem => writeItems_complete cap items ⟨storage, 0, 0, []⟩ h item hmem

/-- A minimal record for concrete write-phase runs. -/
def emptyRec : NormalizedRecord :=
  ⟨[], [], [], [], [], [], [], [], [], false⟩

/-- C4 counterexample: with the cap configured to 1 and two new items, the
first run persists only item `a`; re-running the identical collection
persists item `b` — one new item, not zero — so idempotence of re-runs fails
whenever the first run hits the cap. -/
theorem C4_counterexample :
    (writeItems 1 [⟨"a".data, emptyRec⟩, ⟨"b".data, emptyRec⟩]
      ⟨[], 0, 0, []⟩).newItemsAdded = 1 ∧
    (writeItems 1 [⟨"a".data, emptyRec⟩, ⟨"b".data, emptyRec⟩]
      ⟨(writeItems 1 [⟨"a".data, emptyRec⟩, ⟨"b".data, emptyRec⟩]
          ⟨[], 0, 0, []⟩).storage, 0, 0, []⟩).newItemsAdded = 1 := by
  exact ⟨by decide, by decide⟩

/-- Witness for `C4_write_phase`: a run of one item under cap 10 stays below
the cap, so the second run persists nothing and leaves storage unchanged. -/
theorem C4_witness :
    (writeItems 10 [⟨"a".data, emptyRec⟩]
        ⟨(writeItems 10 [⟨"a".data, emptyRec⟩] ⟨[], 0, 0, []⟩).storage, 0, 0, []⟩).storage =
      (writeItems 10 [⟨"a".data, emptyRec⟩] ⟨[], 0, 0, []⟩).storage ∧
    (writeItems 10 [⟨"a".data, emptyRec⟩]
        ⟨(writeItems 10 [⟨"a".data, emptyRec⟩] ⟨[], 0, 0, []⟩).storage, 0, 0, []⟩).newItemsAdded
      = 0 :=
  C4_write_phase.2.2 10 [⟨"a".data, emptyRec⟩] [] (by decide)

-- ============================================================================
-- `retryWithBackoff` (index.js lines 1106-1124)
-- ============================================================================

/-- A thrown error as inspected by the retry utility:
`error.status || error.response?.status`, resolved here to a single optional
HTTP status, plus the message for distinguishability. -/
structure JsError where
  status : Option ℤ
  message : Str
deriving DecidableEq

/-- `status === 429 || (status >= 500 && status < 600)` (index.js line 1113);
an error without a status is never retryable. -/
def isRetryable (status : Option ℤ) : Bool :=
  match status with
  | none => false
  | some s => s == 429 || (500 ≤ s && s < 600)

/-- Outcome of the retry loop: a returned value, a propagated original error,
or the distinct `Error('Max retries exceeded')`; each carries the backoff
delays (ms) slept along the way. -/
inductive RetryOutcome (α : Type) where
  | success (v : α) (delays : List ℕ)
  | failure (e : JsError) (delays : List ℕ)
  | exhausted (delays : List ℕ)
deriving DecidableEq

/-- The `for (let i = 0; i < maxRetries; i++)` loop (index.js lines
1107-1122), with the outcome of each call of `fn` supplied by attempt index.
On a retryable error the loop sleeps `2^i * 1000` ms and continues (also on
the last iteration, matching the code); any other error propagates
immediately; an exhausted loop throws the distinct condition. -/
def retryAux {α : Type} (fn : ℕ → Except JsError α) :
    ℕ → ℕ → List ℕ → RetryOutcome α
  | 0, _, delays => .exhausted delays
  | remaining + 1, i, delays =>
    match fn i with
    | .ok v => .success v delays
    | .error e =>
      if isRetryable e.status then
        retryAux fn remaining (i + 1) (delays ++ [2 ^ i * 1000])
      else
        .failure e delays

/-- `retryWithBackoff(fn, maxRetries = 3)`. -/
def retryWithBackoff {α : Type} (fn : ℕ → Except JsError α) (maxRetries : ℕ := 3) :
    RetryOutcome α :=
  retryAux fn maxRetries 0 []

/-- C9: with `maxRetries = 3` a retry happens only after an error with status
429 or 5xx, each retry preceded by a `2^attempt`-second wait; a non-retryable
error propagates unchanged the moment it occurs; three retryable errors
exhaust the attempts and surface the distinct `Max retries exceeded`
condition (which is a different outcome from any propagated original
error). -/
theorem C9_retry_backoff :
    (∀ (α : Type) (fn : ℕ → Except JsError α) (v : α),
      fn 0 = .ok v → retryWithBackoff fn 3 = .success v []) ∧
    (∀ (α : Type) (fn : ℕ → Except JsError α) (e : JsError),
      fn 0 = .error e → isRetryable e.status = false →
      retryWithBackoff fn 3 = .failure e []) ∧
    (∀ (α : Type) (fn : ℕ → Except JsError α) (e0 e1 : JsError),
      fn 0 = .error e0 → isRetryable e0.status = true →
      fn 1 = .error e1 → isRetryable e1.status = false →
      retryWithBackoff fn 3 = .failure e1 [1000]) ∧
    (∀ (α : Type) (fn : ℕ → Except JsError α) (e0 e1 e2 : JsError),
      fn 0 = .error e0 → isRetryable e0.status = true →
      fn 1 = .error e1 → isRetryable e1.status = true →
      fn 2 = .error e2 → isRetryable e2.status = true →
      retryWithBackoff fn 3 = .exhausted [1000, 2000, 4000]) ∧
    (∀ (α : Type) (fn : ℕ → Except JsError α) (delays : List ℕ),
      retryWithBackoff fn 3 = .exhausted delays →
      (∃ e, fn 0 = .error e ∧ isRetryable e.status = true) ∧
      (∃ e, fn 1 = .error e ∧ isRetryable e.status = true) ∧
      (∃ e, fn 2 = .error e ∧ isRetryable e.status = true)) ∧
    (∀ (α : Type) (e : JsError) (d1 d2 : List ℕ),
      (RetryOutcome.exhausted d1 : RetryOutcome α) ≠ RetryOutcome.failure e d2) := by
  refine ⟨?_, ?_, ?_, ?_, ?_, ?_⟩
  · intro α fn v h0
    rw [retryWithBackoff, retryAux, h0]
  · intro α fn e h0 hr
    rw [retryWithBackoff, retryAux, h0]
    simp [hr]
  · intro α fn e0 e1 h0 hr0 h1 hr1
    rw [retryWithBackoff, retryAux, h0]
    simp only [hr0, if_true]
    rw [retryAux, h1]
    simp [hr1]
  · intro α fn e0 e1 e2 h0 hr0 h1 hr1 h2 hr2
    rw [retryWithBackoff, retryAux, h0]
    simp only [hr0, if_true]
    rw [retryAux, h1]
    simp only [hr1, if_true]
    rw [retryAux, h2]
    simp only [hr2, if_true]
    rw [retryAux]
    norm_num
  · intro α fn delays h
    rw [retryWithBackoff] at h
    rcases h0 : fn 0 with e0 | v0
    · rw [retryAux, h0] at h
      norm_num at h
      by_cases hr0 : isRetryable e0.status
      · rw [if_pos hr0] at h
        rcases h1 : fn 1 with e1 | v1
        · rw [retryAux, h1] at h
          norm_num at h
          by_cases hr1 : isRetryable e1.status
          · rw [if_pos hr1] at h
            rcases h2 : fn 2 with e2 | v2
            · rw [retryAux, h2] at h
              norm_num at h
              by_cases hr2 : isRetryable e2.status
              · exact ⟨⟨e0, rfl, hr0⟩, ⟨e1, rfl, hr1⟩, ⟨e2, rfl, hr2⟩⟩
              · rw [if_neg hr2] at h
                exact absurd h (by simp)
            · rw [retryAux, h2] at h
              norm_num at h
              exact RetryOutcome.noConfusion h
          · rw [if_neg hr1] at h
            exact absurd h (by simp)
        · rw [retryAux, h1] at h
          norm_num at h
          exact RetryOutcome.noConfusion h
      · rw [if_neg hr0] at h
        exact absurd h (by simp)
    · rw [retryAux, h0] at h
      norm_num at h
      exact RetryOutcome.noConfusion h
  · intro α e d1 d2 h
    exact RetryOutcome.noConfusion h

/-- Witness for `C9_retry_backoff`: a function that always throws status 503
exhausts all three attempts with backoffs 1s, 2s, 4s. -/
theorem C9_witness :
    retryWithBackoff (fun _ => .error ⟨some 503, "boom".data⟩ : ℕ → Except JsError ℕ) 3 =
      .exhausted [1000, 2000, 4000] :=
  C9_retry_backoff.2.2.2.1 ℕ _ ⟨some 503, "boom".data⟩ ⟨some 503, "boom".data⟩
    ⟨some 503, "boom".data⟩ rfl (by decide) rfl (by decide) rfl (by decide)

-- ============================================================================
-- Recommendation resolver: cache (index.js lines 336-373), per-user rate
-- limit (lines 376-388), `getFallbackRecommendations` (lines 393-472),
-- `getRecommendationsForUser` (lines 477-557), and the
-- `/recommendations` endpoint (lines 581-607)
-- ============================================================================

def CACHE_TTL_MS : ℤ := 300000

def RATE_LIMIT_MS : ℤ := 1000

/-- `getCacheKey(uid, count)` (index.js line 338): `` `${uid}:${count}` ``. -/
def getCacheKey (uid : Str) (count : ℕ) : Str := uid ++ (':' :: (toString count).data)

/-- One ranker candidate `{Id, Score}`; a missing `Score` is `none`. -/
structure GorseRec where
  id : Str
  score : Option ℚ
deriving DecidableEq

/-- One item of a recommendation result.  The display payload copied from the
stored document (title, excerpt, tags, publishedAt, url) carries no control
flow, so only the id and score are modelled. -/
structure RecItem where
  contentId : Str
  score : ℚ
deriving DecidableEq

/-- A recommendation result `{items, source, reason?, cached?}`; missing
`reason`/`cached` fields are `[]`/`false`. -/
structure RecResult where
  items : List RecItem
  source : Str
  reason : Str
  cached : Bool
deriving DecidableEq

structure CacheEntry where
  data : RecResult
  timestamp : ℤ
deriving DecidableEq

/-- The in-memory `cache` Map. -/
abbrev Cache := List (Str × CacheEntry)

/-- The in-memory `rateLimitMap`. -/
abbrev RateMap := List (Str × ℤ)

/-- `Map.delete`. -/
def mapDelete {β : Type} (m : List (Str × β)) (k : Str) : List (Str × β) :=
  m.filter fun p => !(p.1 == k)

/-- `Map.set`: rebind `k` to `v`.  The JS `Map` is used purely as a key-value
store here (the only iteration, `invalidateCache`, is outside the modelled
paths), so the state is kept in the canonical replace-by-prepend form, which
has the same lookup semantics. -/
def mapSet {β : Type} (m : List (Str × β)) (k : Str) (v : β) : List (Str × β) :=
  (k, v) :: mapDelete m k



/-- `checkRateLimit(uid)` (index.js lines 378-388): reject when the previous
call is younger than the window, otherwise record this call. -/
def checkRateLimit (rl : RateMap) (now : ℤ) (uid : Str) : Bool × RateMap :=
  match rl.lookup uid with
  | some lastCall =>
      if now - lastCall < RATE_LIMIT_MS then (false, rl)
      else (true, mapSet rl uid now)
  | none => (true, mapSet rl uid now)

/-- The external state one resolve request reads: the outcome of the Gorse
recommend call, the user document (`none` = missing, otherwise its
`interests || []`), the content collection, the recent-content query result
backing the fallback scorer (in query order), and the current time. -/
structure ResolverEnv where
  gorse : Except Str (List GorseRec)
  user : Option (List Str)
  content : List (Str × ContentDoc)
  fallbackPool : List (Str × ContentDoc)
  now : ℤ

/-- `gorseRecommendations[idx].Score || 1.0` (index.js line 528). -/
def gorseScoreOrDefault (s : Option ℚ) : ℚ :=
  match s with
  | none => 1
  | some v => if v = 0 then 1 else v

/-- `getFallbackRecommendations(uid, count)` (index.js lines 393-472): early
returns for a missing user, empty interests, or empty candidate pool; then
score, keep only matching candidates, sort by descending score, take
`count`. -/
def getFallbackRecommendations (env : ResolverEnv) (count : ℕ) : RecResult :=
  match env.user with
  | none =>
      { items := [], source := "fallback".data, reason := "user_not_found".data,
        cached := false }
  | some interests =>
      if interests.length = 0 then
        { items := [], source := "fallback".data, reason := "no_interests".data,
          cached := false }
      else if env.fallbackPool.length = 0 then
        { items := [], source := "fallback".data, reason := "no_content".data,
          cached := false }
      else
        let scored := (env.fallbackPool.filter fun p => fallbackIncluded interests p.2).map
          fun p =>
            ({ contentId := p.1,
               score := fallbackScore interests (env.now : ℚ) p.2 } : RecItem)
        let sorted := scored.mergeSort fun a b => decide (b.score ≤ a.score)
        { items := sorted.take count, source := "fallback".data, reason := [],
          cached := false }

/-- The non-cached part of `getRecommendationsForUser` (index.js lines
484-556): Gorse call, id resolution, relevance filter, fallback top-up,
truncation, and the cache write — or full delegation to the fallback scorer
when the call fails or yields no ids. -/
def resolveFresh (env : ResolverEnv) (cache : Cache) (uid : Str) (count : ℕ) :
    RecResult × Cache :=
  match env.gorse with
  | .error _ => (getFallbackRecommendations env count, cache)
  | .ok recs =>
      let itemIds := (recs.map (·.id)).take count
      if itemIds.length = 0 then (getFallbackRecommendations env count, cache)
      else
        let userInterests := match env.user with | none => [] | some i => i
        let items := (List.range itemIds.length).filterMap fun idx =>
          match env.content.lookup (itemIds.getD idx []) with
          | none => none
          | some doc =>
              if relevanceKeep userInterests doc.tags then
                some ({ contentId := itemIds.getD idx []
                        score := gorseScoreOrDefault (recs.getD idx ⟨[], none⟩).score } : RecItem)
              else none
        let items2 :=
          if items.length < count ∧ userInterests.length ≠ 0 then
            items ++ (getFallbackRecommendations env (count - items.length)).items
          else items
        let result : RecResult :=
          { items := items2.take count, source := "gorse".data, reason := [],
            cached := false }
        (result, mapSet cache (getCacheKey uid count)
          { data := result, timestamp := env.now })

/-- `getRecommendationsForUser(uid, count)` (index.js lines 477-557): fresh
cache hit → return it marked `cached`; expired entry → delete it and resolve
fresh; miss → resolve fresh. -/
def getRecommendationsForUser (env : ResolverEnv) (cache : Cache) (uid : Str)
    (count : ℕ) : RecResult × Cache :=
  match cache.lookup (getCacheKey uid count) with
  | some entry =>
      if env.now - entry.timestamp > CACHE_TTL_MS then
        resolveFresh env (mapDelete cache (getCacheKey uid count)) uid count
      else
        ({ entry.data with cached := true }, cache)
  | none => resolveFresh env cache uid count

/-- Response of the `/recommendations` endpoint. -/
inductive ApiResponse where
  | badRequest
  | rateLimited
  | ok (r : RecResult)
deriving DecidableEq

/-- The `/recommendations` handler (index.js lines 581-607): missing uid →
400; then the rate check — **before** any cache access — then the resolver. -/
def handleRecommendations (env : ResolverEnv) (cache : Cache) (rl : RateMap)
    (uid : Str) (count : ℕ) : ApiResponse × Cache × RateMap :=
  if uid.length = 0 then (.badRequest, cache, rl)
  else
    let rateOutcome := checkRateLimit rl env.now uid
    if rateOutcome.1 then
      let resolved := getRecommendationsForUser env cache uid count
      (.ok resolved.1, resolved.2, rateOutcome.2)
    else
      (.rateLimited, cache, rateOutcome.2)

theorem lookup_mapSet_self {β : Type} (m : List (Str × β)) (k : Str) (v : β) :
    (mapSet m k v).lookup k = some v := by
  simp [mapSet, List.lookup]

theorem lookup_mapDelete {β : Type} (m : List (Str × β)) (k k' : Str) :
    (mapDelete m k).lookup k' = if k' = k then none else m.lookup k' := by
  induction m with
  | nil => by_cases hk : k' = k <;> simp [mapDelete, hk]
  | cons p t ih =>
    obtain ⟨p1, p2⟩ := p
    rw [mapDelete, List.filter_cons]
    rw [mapDelete] at ih
    by_cases hp : (p1 == k) = true
    · have hpk := eq_of_beq hp
      rw [hp]
      simp only [Bool.not_true, Bool.false_eq_true, if_false]
      rw [ih]
      by_cases hk : k' = k
      · simp [hk]
      · have hne : (k' == p1) = false :=
          beq_eq_false_iff_ne.mpr fun he => hk (he.trans hpk)
        simp [List.lookup_cons, hk, hne]
    · rw [Bool.not_eq_true] at hp
      rw [hp]
      simp only [Bool.not_false, if_true]
      rw [List.lookup_cons, List.lookup_cons, ih]
      by_cases hk : k' = k
      · have hne : (k' == p1) = false := by
          rw [beq_eq_false_iff_ne] at hp ⊢
          intro he
          exact hp (by rw [← he, hk])
        rw [hk] at hne
        simp [hne, hk]
      · simp [if_neg hk]

theorem lookup_mapSet_other {β : Type} (m : List (Str × β)) (k k' : Str) (v : β)
    (hne : k' ≠ k) : (mapSet m k v).lookup k' = m.lookup k' := by
  rw [mapSet, List.lookup, beq_eq_false_iff_ne.mpr hne, lookup_mapDelete, if_neg hne]

theorem fallback_tagged (env : ResolverEnv) (count : ℕ) :
    (getFallbackRecommendations env count).source = "fallback".data ∧
    (getFallbackRecommendations env count).cached = false := by
  obtain ⟨g, u, c, f, n⟩ := env
  cases u with
  | none => exact ⟨rfl, rfl⟩
  | some interests =>
    rw [getFallbackRecommendations]
    dsimp only
    split_ifs <;> exact ⟨rfl, rfl⟩

theorem resolveFresh_cases (env : ResolverEnv) (cache : Cache) (uid : Str) (count : ℕ) :
    (resolveFresh env cache uid count).2 = cache ∨
    ((resolveFresh env cache uid count).1.source = "gorse".data ∧
     (resolveFresh env cache uid count).2 =
       mapSet cache (getCacheKey uid count)
         ⟨(resolveFresh env cache uid count).1, env.now⟩) := by
  obtain ⟨g, u, c, f, n⟩ := env
  cases g with
  | error e => exact Or.inl rfl
  | ok recs =>
    rw [resolveFresh]
    dsimp only
    split_ifs with h1 h2
    · exact Or.inl rfl
    · exact Or.inr ⟨rfl, rfl⟩
    · exact Or.inr ⟨rfl, rfl⟩

theorem cache_writes_gorse_only (env : ResolverEnv) (cache : Cache) (uid : Str)
    (count : ℕ) (k : Str) (entry : CacheEntry)
    (h : ((getRecommendationsForUser env cache uid count).2.lookup k) = some entry) :
    cache.lookup k = some entry ∨ entry.data.source = "gorse".data := by
  rw [getRecommendationsForUser] at h
  rcases hc : cache.lookup (getCacheKey uid count) with _ | entry0
  · rw [hc] at h
    dsimp only at h
    rcases resolveFresh_cases env cache uid count with he | ⟨hsrc, he⟩
    · rw [he] at h
      exact Or.inl h
    · rw [he] at h
      by_cases hk : k = getCacheKey uid count
      · subst hk
        rw [lookup_mapSet_self] at h
        have hent : entry = ⟨(resolveFresh env cache uid count).1, env.now⟩ :=
          (Option.some.inj h).symm
        rw [hent]
        exact Or.inr hsrc
      · rw [lookup_mapSet_other _ _ _ _ hk] at h
        exact Or.inl h
  · rw [hc] at h
    dsimp only at h
    by_cases hex : env.now - entry0.timestamp > CACHE_TTL_MS
    · rw [if_pos hex] at h
      rcases resolveFresh_cases env (mapDelete cache (getCacheKey uid count)) uid count with
        he | ⟨hsrc, he⟩
      · rw [he, lookup_mapDelete] at h
        by_cases hk : k = getCacheKey uid count
        · rw [if_pos hk] at h
          exact Option.noConfusion h
        · rw [if_neg hk] at h
          exact Or.inl h
      · rw [he] at h
        by_cases hk : k = getCacheKey uid count
        · subst hk
          rw [lookup_mapSet_self] at h
          have hent : entry =
              ⟨(resolveFresh env (mapDelete cache (getCacheKey uid count)) uid count).1,
                env.now⟩ :=
            (Option.some.inj h).symm
          rw [hent]
          exact Or.inr hsrc
        · rw [lookup_mapSet_other _ _ _ _ hk, lookup_mapDelete, if_neg hk] at h
          exact Or.inl h
    · rw [if_neg hex] at h
      exact Or.inl h

theorem getRecs_gorse_error (env : ResolverEnv) (cache : Cache) (uid : Str)
    (count : ℕ) (e : Str) (hg : env.gorse = .error e)
    (hc : cache.lookup (getCacheKey uid count) = none) :
    getRecommendationsForUser env cache uid count =
      (getFallbackRecommendations env count, cache) := by
  rw [getRecommendationsForUser, hc]
  dsimp only
  rw [resolveFresh, hg]

theorem getRecs_gorse_empty (env : ResolverEnv) (cache : Cache) (uid : Str)
    (count : ℕ) (hg : env.gorse = .ok [])
    (hc : cache.lookup (getCacheKey uid count) = none) :
    getRecommendationsForUser env cache uid count =
      (getFallbackRecommendations env count, cache) := by
  rw [getRecommendationsForUser, hc]
  dsimp only
  rw [resolveFresh, hg]
  simp [List.take_nil]

/-- C3 (amended): the `/recommendations` handler applies the per-user
one-second rate check **before** any cache access: a request arriving within
the throttle window is rejected with the rate-limit signal even when a fresh
cached result for `(uid, count)` exists; only a request that passes the rate
gate is served its fresh cached result, marked `cached`, with the cache left
unchanged. -/
theorem C3_rate_check_before_cache :
    (∀ (env : ResolverEnv) (cache : Cache) (rl : RateMap) (uid : Str) (count : ℕ) (t : ℤ),
      uid.length ≠ 0 → rl.lookup uid = some t → env.now - t < RATE_LIMIT_MS →
      handleRecommendations env cache rl uid count = (.rateLimited, cache, rl)) ∧
    (∀ (env : ResolverEnv) (cache : Cache) (rl : RateMap) (uid : Str) (count : ℕ)
        (entry : CacheEntry),
      uid.length ≠ 0 → (checkRateLimit rl env.now uid).1 = true →
      cache.lookup (getCacheKey uid count) = some entry →
      ¬(env.now - entry.timestamp > CACHE_TTL_MS) →
      (handleRecommendations env cache rl uid count).1 =
        .ok { entry.data with cached := true } ∧
      (handleRecommendations env cache rl uid count).2.1 = cache) := by
  constructor
  · intro env cache rl uid count t hu hl ht
    rw [handleRecommendations, if_neg hu]
    dsimp only
    rw [checkRateLimit, hl]
    dsimp only
    rw [if_pos ht]
    simp
  · intro env cache rl uid count entry hu hrate hc hfresh
    rw [handleRecommendations, if_neg hu]
    dsimp only
    rw [if_pos hrate]
    rw [getRecommendationsForUser, hc]
    dsimp only
    rw [if_neg hfresh]
    exact ⟨rfl, rfl⟩

/-- A resolver environment with the ranker down, used by concrete scenarios. -/
def downEnv : ResolverEnv :=
  { gorse := .error "gorse down".data
    user := none
    content := []
    fallbackPool := []
    now := 10000 }

/-- A previously cached ranker result. -/
def cachedResult : RecResult :=
  { items := [], source := "gorse".data, reason := [], cached := false }

/-- C3 counterexample: a request 500 ms after the user's previous one is
rejected with the rate-limit signal even though a fresh (1-second-old, TTL 5
minutes) cached result for exactly this `(uid, count)` exists — the claim
says a cache-served request is never rejected with the rate-limit signal. -/
theorem C3_counterexample :
    (handleRecommendations downEnv
        [(getCacheKey "u".data 20, { data := cachedResult, timestamp := 9000 })]
        [("u".data, 9500)] "u".data 20).1 = .rateLimited ∧
    ([(getCacheKey "u".data 20,
        ({ data := cachedResult, timestamp := 9000 } : CacheEntry))].lookup
      (getCacheKey "u".data 20)).isSome = true ∧
    ¬((10000 : ℤ) - 9000 > CACHE_TTL_MS) := by
  refine ⟨?_, by decide, by decide⟩
  decide

/-- Witness for `C3_rate_check_before_cache`: with the same fresh cache entry
but no recent request, the handler serves the cached result marked `cached`
and leaves the cache unchanged. -/
theorem C3_witness :
    (handleRecommendations downEnv
        [(getCacheKey "u".data 20, { data := cachedResult, timestamp := 9000 })]
        [] "u".data 20).1 = .ok { cachedResult with cached := true } ∧
    (handleRecommendations downEnv
        [(getCacheKey "u".data 20, { data := cachedResult, timestamp := 9000 })]
        [] "u".data 20).2.1 =
      [(getCacheKey "u".data 20, { data := cachedResult, timestamp := 9000 })] :=
  C3_rate_check_before_cache.2 downEnv
    [(getCacheKey "u".data 20, { data := cachedResult, timestamp := 9000 })]
    [] "u".data 20 { data := cachedResult, timestamp := 9000 }
    (by decide) (by decide) (by decide) (by decide)

/-- C10: the recommendation cache only ever receives results tagged with the
external-ranker source: every entry of the post-request cache either was
already present or carries `source = "gorse"`; a fallback-scored result
(ranker call failed, or returned zero candidates, or the fallback's own
user/content lookups came up empty) always carries `source = "fallback"`,
is never marked cached, and — absent a cached entry for the key — the resolve
call returns exactly the freshly computed fallback result and leaves the
cache untouched, so repeated calls while the ranker is down recompute it
every time. -/
theorem C10_fallback_not_cached :
    (∀ (env : ResolverEnv) (count : ℕ),
      (getFallbackRecommendations env count).source = "fallback".data ∧
      (getFallbackRecommendations env count).cached = false) ∧
    (∀ (env : ResolverEnv) (cache : Cache) (uid : Str) (count : ℕ) (e : Str),
      env.gorse = .error e →
      cache.lookup (getCacheKey uid count) = none →
      getRecommendationsForUser env cache uid count =
        (getFallbackRecommendations env count, cache)) ∧
    (∀ (env : ResolverEnv) (cache : Cache) (uid : Str) (count : ℕ),
      env.gorse = .ok [] →
      cache.lookup (getCacheKey uid count) = none →
      getRecommendationsForUser env cache uid count =
        (getFallbackRecommendations env count, cache)) ∧
    (∀ (env : ResolverEnv) (cache : Cache) (uid : Str) (count : ℕ) (k : Str)
        (entry : CacheEntry),
      ((getRecommendationsForUser env cache uid count).2.lookup k) = some entry →
      cache.lookup k = some entry ∨ entry.data.source = "gorse".data) :=
  ⟨fallback_tagged, getRecs_gorse_error, getRecs_gorse_empty, cache_writes_gorse_only⟩

/-- Witness for `C10_fallback_not_cached`: with the ranker down and an empty
cache, the resolve call returns the fallback result and the cache stays
empty. -/
theorem C10_witness :
    getRecommendationsForUser downEnv [] "u".data 20 =
      (getFallbackRecommendations downEnv 20, []) :=
  C10_fallback_not_cached.2.1 downEnv [] "u".data 20 "gorse down".data rfl rfl

-- ============================================================================
-- `RateLimiter.throttle` (index.js lines 995-1034)
-- ============================================================================

/-- The eviction loop `while (queue.length && queue[0] < now - 1000)
queue.shift()` (index.js lines 1010-1012). -/
def evictOld (queue : List ℤ) (now : ℤ) : List ℤ :=
  queue.dropWhile fun s => decide (s < now - 1000)

/-- Outcome of one `throttle` check: either the request proceeds (with the
updated per-host window) or the caller must sleep `delay` ms and re-check. -/
inductive ThrottleStep where
  | proceed (queue : List ℤ)
  | wait (delay : ℤ)
deriving DecidableEq

/-- One body of `throttle(host)` at instant `now` (index.js lines 1001-1023):
evict, then either wait `1000 - (now - oldest) + 10` or record `now`. -/
def throttleStep (maxPerSecond : ℕ) (queue : List ℤ) (now : ℤ) : ThrottleStep :=
  let q := evictOld queue now
  if maxPerSecond ≤ q.length then
    .wait (1000 - (now - q.headD 0) + 10)
  else
    .proceed (q ++ [now])

/-- A whole trace of `throttle` checks on one host at nondecreasing instants
`ts` (covering any interleaving of first calls and post-wait re-checks):
returns the final window and the list of instants whose requests proceeded.
A waiting check keeps the (evicted) window unchanged and records nothing. -/
def runThrottle (maxPerSecond : ℕ) : List ℤ → List ℤ → List ℤ × List ℤ
  | [], queue => (queue, [])
  | t :: rest, queue =>
    match throttleStep maxPerSecond queue t with
    | .proceed q2 =>
        let r := runThrottle maxPerSecond rest q2
        (r.1, t :: r.2)
    | .wait _ => runThrottle maxPerSecond rest (evictOld queue t)

/-- Number of timestamps of `l` inside the closed window `[a, a+1000]`. -/
def wcount (a : ℤ) (l : List ℤ) : ℕ :=
  (l.filter fun s => decide (a ≤ s ∧ s ≤ a + 1000)).length

theorem wcount_append (a : ℤ) (l₁ l₂ : List ℤ) :
    wcount a (l₁ ++ l₂) = wcount a l₁ + wcount a l₂ := by
  simp [wcount, List.filter_append]

theorem wcount_cons (a x : ℤ) (l : List ℤ) :
    wcount a (x :: l) = (if a ≤ x ∧ x ≤ a + 1000 then 1 else 0) + wcount a l := by
  simp only [wcount, List.filter_cons]
  split <;> simp_all <;> omega

/-- On a sorted window, the front eviction loop removes exactly the
timestamps older than the cutoff. -/
theorem dropWhile_lt_sorted (l : List ℤ) (c : ℤ) (hl : l.Pairwise (· ≤ ·)) :
    (l.dropWhile fun s => decide (s < c)) = l.filter fun s => decide (c ≤ s) := by
  induction l with
  | nil => rfl
  | cons x tl ih =>
    rw [List.pairwise_cons] at hl
    by_cases hx : x < c
    · rw [List.dropWhile_cons_of_pos (by simpa using hx), List.filter_cons,
        decide_eq_false (by omega), ih hl.2]
      simp
    · rw [List.dropWhile_cons_of_neg (by simpa using hx), List.filter_cons,
        decide_eq_true (by omega)]
      have : tl.filter (fun s => decide (c ≤ s)) = tl := by
        apply List.filter_eq_self.mpr
        intro s hs
        have := hl.1 s hs
        simp only [decide_eq_true_eq]
        omega
      rw [this]
      simp

theorem filter_ge_filter_ge (l : List ℤ) (c1 c2 : ℤ) (h : c1 ≤ c2) :
    ((l.filter fun s => decide (c1 ≤ s)).filter fun s => decide (c2 ≤ s)) =
      l.filter fun s => decide (c2 ≤ s) := by
  induction l with
  | nil => rfl
  | cons x tl ih =>
    by_cases h2 : c2 ≤ x
    · have h1 : c1 ≤ x := le_trans h h2
      simp [List.filter_cons, h1, h2, ih]
    · by_cases h1 : c1 ≤ x
      · simp [List.filter_cons, h1, h2, ih]
      · simp [List.filter_cons, h1, h2, ih]

/-- Main invariant of the throttle trace: if the accepted-so-far list `acc`
(everything ≤ `tcur`, sorted, windows bounded by the cap) matches the current
queue, then after any further nondecreasing checks every rolling window still
holds at most the cap. -/
theorem runThrottle_inv (maxPerSecond : ℕ) (ts : List ℤ) :
    ∀ (acc queue : List ℤ) (tcur : ℤ),
    ts.Pairwise (· ≤ ·) → (∀ t ∈ ts, tcur ≤ t) →
    (∀ s ∈ acc, s ≤ tcur) → acc.Pairwise (· ≤ ·) →
    queue = acc.filter (fun s => decide (tcur - 1000 ≤ s)) →
    (∀ a : ℤ, wcount a acc ≤ maxPerSecond) →
    ∀ a : ℤ, wcount a (runThrottle maxPerSecond ts queue).2 + wcount a acc ≤ maxPerSecond := by
  induction ts with
  | nil =>
    intro acc queue tcur _ _ _ _ _ hbound a
    simpa [runThrottle, wcount] using hbound a
  | cons t rest ih =>
    intro acc queue tcur hts hts0 hacc_le hacc_sorted hqueue hbound a
    have htcur : tcur ≤ t := hts0 t (List.mem_cons_self t rest)
    rw [List.pairwise_cons] at hts
    have hqsorted : queue.Pairwise (· ≤ ·) := hqueue ▸ hacc_sorted.filter _
    have hev : evictOld queue t = acc.filter fun s => decide (t - 1000 ≤ s) := by
      rw [evictOld, dropWhile_lt_sorted queue (t - 1000) hqsorted, hqueue]
      exact filter_ge_filter_ge acc (tcur - 1000) (t - 1000) (by omega)
    rw [runThrottle, throttleStep]
    by_cases hfull : maxPerSecond ≤ (evictOld queue t).length
    · rw [if_pos hfull]
      dsimp only
      rw [hev]
      exact ih acc _ t hts.2 hts.1 (fun s hs => le_trans (hacc_le s hs) htcur)
        hacc_sorted rfl hbound a
    · rw [if_neg hfull]
      dsimp only
      rw [hev] at hfull
      have hbound2 : ∀ b : ℤ, wcount b (acc ++ [t]) ≤ maxPerSecond := by
        intro b
        rw [wcount_append, wcount_cons]
        by_cases hw : b ≤ t ∧ t ≤ b + 1000
        · rw [if_pos hw]
          have hsub : wcount b acc ≤
              (acc.filter fun s => decide (t - 1000 ≤ s)).length := by
            rw [wcount]
            apply length_filter_mono
            intro s _ hp
            simp only [decide_eq_true_eq] at hp ⊢
            omega
          have hnil : wcount b ([] : List ℤ) = 0 := rfl
          rw [hnil]
          omega
        · rw [if_neg hw]
          have := hbound b
          have hnil : wcount b ([] : List ℤ) = 0 := rfl
          rw [hnil]
          omega
      have hrec := ih (acc ++ [t]) (evictOld queue t ++ [t]) t hts.2 hts.1
        (fun s hs => by
          rcases List.mem_append.mp hs with hs | hs
          · exact le_trans (hacc_le s hs) htcur
          · simpa using List.mem_singleton.mp hs ▸ le_refl t)
        (List.pairwise_append.mpr
          ⟨hacc_sorted, List.pairwise_singleton _ _,
            fun s hs t' ht' => by
              rw [List.mem_singleton] at ht'
              subst ht'
              exact le_trans (hacc_le s hs) htcur⟩)
        (by
          rw [List.filter_append, hev, List.filter_cons]
          simp only [decide_eq_true (show t - 1000 ≤ t by omega)]
          simp)
        hbound2 a
      rw [wcount_append, wcount_cons] at hrec
      rw [wcount_cons]
      have hnil : wcount a ([] : List ℤ) = 0 := rfl
      rw [hnil] at hrec
      omega

/-- C7: over any trace of `throttle` checks at nondecreasing instants the
proceeding requests for a host never exceed the cap (default 10) inside any
rolling one-second window; every check evicts timestamps older than one
second before the capacity test (definitionally, `throttleStep` only ever
inspects `evictOld queue now`); an at-capacity caller gets a wait of exactly
`1000 - (now - oldest) + 10` ms — i.e. it re-checks precisely when the oldest
timestamp exits the window plus the 10 ms margin — and records nothing, while
a below-capacity caller proceeds immediately, appending its timestamp. -/
theorem C7_rate_limiter_window :
    (∀ (maxPerSecond : ℕ) (ts : List ℤ),
      ts.Pairwise (· ≤ ·) →
      ∀ a : ℤ, wcount a (runThrottle maxPerSecond ts []).2 ≤ maxPerSecond) ∧
    (∀ (maxPerSecond : ℕ) (queue : List ℤ) (t : ℤ),
      maxPerSecond ≤ (evictOld queue t).length →
      throttleStep maxPerSecond queue t =
        .wait (1000 - (t - (evictOld queue t).headD 0) + 10) ∧
      t + (1000 - (t - (evictOld queue t).headD 0) + 10) =
        (evictOld queue t).headD 0 + 1000 + 10) ∧
    (∀ (maxPerSecond : ℕ) (queue : List ℤ) (t : ℤ),
      (evictOld queue t).length < maxPerSecond →
      throttleStep maxPerSecond queue t = .proceed (evictOld queue t ++ [t])) := by
  refine ⟨?_, ?_, ?_⟩
  · intro maxPerSecond ts hts a
    have hts0 : ∀ t ∈ ts, ts.headD 0 ≤ t := by
      cases ts with
      | nil => intro t ht; cases ht
      | cons h rest =>
        intro t ht
        rcases List.mem_cons.mp ht with rfl | ht2
        · exact le_refl _
        · exact (List.pairwise_cons.mp hts).1 t ht2
    have h := runThrottle_inv maxPerSecond ts [] [] (ts.headD 0) hts hts0
      (by intro s hs; cases hs) List.Pairwise.nil rfl
      (by intro b; simp [wcount]) a
    have hnil : wcount a ([] : List ℤ) = 0 := rfl
    omega
  · intro maxPerSecond queue t h
    rw [throttleStep]
    rw [if_pos h]
    exact ⟨rfl, by ring⟩
  · intro maxPerSecond queue t h
    rw [throttleStep]
    rw [if_neg (by omega)]

/-- Witness for `C7_rate_limiter_window`: 15 simultaneous requests against a
10/second cap let at most 10 proceed in the window around instant 0 (the
trace in fact accepts exactly 10 of them). -/
theorem C7_witness :
    wcount 0 (runThrottle 10 (List.replicate 15 0) []).2 ≤ 10 ∧
    (runThrottle 10 (List.replicate 15 0) []).2.length = 10 :=
  ⟨C7_rate_limiter_window.1 10 (List.replicate 15 0) (by decide) 0, by decide⟩

end Feed
